import Mathlib

/-!
Shallow embedding of the spreadsheet layout interpreter and writer of the
Stundenapp repository (src/excel_io.py).  Worksheets are modelled as total
cell functions together with the list of merged ranges; workbooks as a list
of sheet names together with a sheet-valued lookup function.  Calendar dates
are modelled as day counts since 0000-03-01 of the proleptic Gregorian
calendar; year, month and weekday are computed from the day count with the
standard civil-calendar conversion, matching the Python date type used by
the source.  Scanning loops of the source are embedded with an explicit
fuel argument that bounds the number of iterations; the initial fuel is
always at least the number of iterations the Python loop can perform, and
running out of fuel coincides with the loop condition failing.
-/

namespace Stundenapp

/-! ### Calendar dates (epoch-day representation) -/

/-- Convert a day count (days since 0000-03-01, proleptic Gregorian) to
(year, month, day), the standard civil-from-days algorithm. -/
def civilFromDays (z : Nat) : Nat × Nat × Nat :=
  let era := z / 146097
  let doe := z % 146097
  let yoe := (doe - doe / 1460 + doe / 36524 - doe / 146096) / 365
  let y := yoe + era * 400
  let doy := doe - (365 * yoe + yoe / 4 - yoe / 100)
  let mp := (5 * doy + 2) / 153
  let d := doy - (153 * mp + 2) / 5 + 1
  let m := if mp < 10 then mp + 3 else mp - 9
  (if m ≤ 2 then y + 1 else y, m, d)

/-- Inverse conversion: (year, month, day) to the day count. -/
def daysFromCivil (y m d : Nat) : Nat :=
  let y1 := if m ≤ 2 then y - 1 else y
  let era := y1 / 400
  let yoe := y1 % 400
  let doy := (153 * (if 2 < m then m - 3 else m + 9) + 2) / 5 + d - 1
  let doe := yoe * 365 + yoe / 4 - yoe / 100 + doy
  era * 146097 + doe

def yearOf (z : Nat) : Nat := (civilFromDays z).1

def monthOf (z : Nat) : Nat := (civilFromDays z).2.1

/-- Weekday with Monday = 0 .. Sunday = 6, as Python date.weekday(). -/
def weekday (z : Nat) : Nat := (z + 2) % 7

/-! ### Fixed layout constants (src/excel_io.py lines 11-24) -/

def SHEET_EINGABE : String := "Anpassung"
def COL_EMP : Nat := 13
def COL_PROJ : Nat := 14
def COL_ABS : Nat := 16
def FIRST_ROW_LIST : Nat := 4

def HEADER_ROW : Nat := 3
def SUBHEADER_ROW : Nat := 4
def FIRST_EMP_COL : Nat := 6
def DATE_FIRST_ROW : Nat := 5
def DATE_COL : Nat := 3

/-- The fixed German month-name table MONTH_DE.  Total with junk default
outside 1..12; Python date months always lie in 1..12. -/
def MONTH_DE : Nat → String
  | 1 => "Januar"
  | 2 => "Februar"
  | 3 => "März"
  | 4 => "April"
  | 5 => "Mai"
  | 6 => "Juni"
  | 7 => "Juli"
  | 8 => "August"
  | 9 => "September"
  | 10 => "Oktober"
  | 11 => "November"
  | 12 => "Dezember"
  | _ => ""

/-- month_sheet_name(dt) = MONTH_DE[dt.month]. -/
def month_sheet_name (dt : Nat) : String := MONTH_DE (monthOf dt)

/-! ### Cell values and worksheets -/

/-- A spreadsheet cell value: empty (Python None), a string, a number
(hours are 3.5 / 7.0, exactly representable, modelled as rationals), or a
date (datetime cells are already collapsed to their calendar date, which is
all the source ever extracts via _as_date). -/
inductive CellValue where
  | none
  | str (s : String)
  | num (q : Rat)
  | date (z : Nat)
deriving DecidableEq

/-- Python str(v) for a cell value; the rendering of non-string values is
abstract (no claim depends on stringified numbers or dates). -/
def rawStr : CellValue → String
  | CellValue.none => ""
  | CellValue.str s => s
  | CellValue.num q => toString q
  | CellValue.date z => toString z

/-- Python str.strip() on the character list: drop leading and trailing
whitespace.  (Implemented on char lists because the built-in String.trim
does not reduce inside the kernel; semantics agree on the whitespace
characters the source data can contain.) -/
def trimList (l : List Char) : List Char :=
  ((l.dropWhile Char.isWhitespace).reverse.dropWhile Char.isWhitespace).reverse

/-- Python str.lower() per character (ASCII; every name the claims compare
is ASCII). -/
def lowerChar (c : Char) : Char :=
  if 'A' ≤ c ∧ c ≤ 'Z' then Char.ofNat (c.toNat + 32) else c

/-- Python str.strip(). -/
def trimStr (s : String) : String := String.mk (trimList s.data)

/-- The idiom `str(val).strip() if val is not None else ""`. -/
def strippedStr (v : CellValue) : String :=
  match v with
  | CellValue.none => ""
  | v => trimStr (rawStr v)

/-- _as_date: None and non-date values map to None, date values to the date. -/
def as_date : CellValue → Option Nat
  | CellValue.date z => some z
  | _ => Option.none

/-- _normalize_key: strip then lowercase. -/
def normalize_key (s : String) : String :=
  String.mk ((trimList s.data).map lowerChar)

/-- A horizontally/vertically merged cell range of a worksheet. -/
structure MergedRange where
  min_row : Nat
  max_row : Nat
  min_col : Nat
  max_col : Nat
deriving DecidableEq

/-- Membership of a (row, col) position in a merged range. -/
def inRange (rng : MergedRange) (row col : Nat) : Bool :=
  decide (rng.min_row ≤ row) && decide (row ≤ rng.max_row) &&
  decide (rng.min_col ≤ col) && decide (col ≤ rng.max_col)

/-- A worksheet: a total cell store, the merged ranges, and the used-range
bounds max_row / max_column of openpyxl. -/
structure Worksheet where
  cells : Nat → Nat → CellValue
  merged : List MergedRange
  max_row : Nat
  max_col : Nat

/-- A workbook: the sheet-name list and the sheet stored under each name
(total function; only consulted after a membership guard, as in the
source). -/
structure Workbook where
  sheetnames : List String
  data : String → Worksheet

/-- ws.cell(r, c).value = v -/
def setCell (ws : Worksheet) (r c : Nat) (v : CellValue) : Worksheet :=
  { ws with cells := fun r1 c1 => if r1 = r ∧ c1 = c then v else ws.cells r1 c1 }

/-- Replace the sheet stored under a name (in-place mutation of wb[nm]). -/
def updateSheet (wb : Workbook) (nm : String) (ws : Worksheet) : Workbook :=
  { wb with data := fun n => if n = nm then ws else wb.data n }

/-- EmployeeBlock(start_col, width). -/
structure EmployeeBlock where
  start_col : Nat
  width : Nat
deriving DecidableEq

/-- abs_col = start_col + width - 1. -/
def EmployeeBlock.abs_col (b : EmployeeBlock) : Nat := b.start_col + b.width - 1

/-! ### Sheet routing and list loading -/

/-- _get_month_sheet, returning the resolved sheet name (the resolved sheet
itself is wb.data of that name): the month-name sheet if present, the
"Maerz" alias if the name is "März" and the alias is present, else none. -/
def get_month_sheet (wb : Workbook) (month : Nat) : Option String :=
  if month_sheet_name month ∈ wb.sheetnames then some (month_sheet_name month)
  else if month_sheet_name month = "März" ∧ "Maerz" ∈ wb.sheetnames then
    some "Maerz"
  else Option.none

/-- _unique_from_col: collect distinct non-empty trimmed strings in
first-seen order from one column, rows first_row .. max_row. -/
def unique_from_col (ws : Worksheet) (col first_row : Nat) : List String :=
  ((List.range' first_row (ws.max_row + 1 - first_row)).foldl
    (fun (acc : List String × List String) r =>
      let s := strippedStr (ws.cells r col)
      if s ≠ "" ∧ s ∉ acc.2 then (acc.1 ++ [s], acc.2 ++ [s]) else acc)
    ([], [])).1

/-- load_lists: raises (Except.error) when the settings sheet is absent,
otherwise returns the three deduplicated column lists. -/
def load_lists (wb : Workbook) :
    Except String (List String × List String × List String) :=
  if SHEET_EINGABE ∈ wb.sheetnames then
    let ws := wb.data SHEET_EINGABE
    Except.ok (unique_from_col ws COL_EMP FIRST_ROW_LIST,
               unique_from_col ws COL_PROJ FIRST_ROW_LIST,
               unique_from_col ws COL_ABS FIRST_ROW_LIST)
  else Except.error "Blatt Anpassung nicht gefunden."

/-! ### Layout resolver -/

/-- _header_cell_value_and_width: resolved label (merge-aware), block
width, and the next scan column. -/
def header_cell_value_and_width (ws : Worksheet) (row col : Nat) :
    String × Nat × Nat :=
  match ws.merged.find? (fun rng => inRange rng row col) with
  | some rng =>
      (strippedStr (ws.cells rng.min_row rng.min_col),
       rng.max_col - rng.min_col + 1,
       rng.min_col + (rng.max_col - rng.min_col + 1))
  | Option.none => (strippedStr (ws.cells row col), 1, col + 1)

/-- The header-scan loop of _find_employee_block, fuel-bounded.  Each
iteration advances the scan column by at least one, so fuel max_col + 1
never runs out before the loop condition c ≤ max_col fails. -/
def find_emp_loop (ws : Worksheet) (emp_key : String) :
    Nat → Nat → Nat → Option EmployeeBlock
  | 0, _, _ => Option.none
  | fuel + 1, c, streak =>
    if c ≤ ws.max_col then
      if normalize_key (header_cell_value_and_width ws HEADER_ROW c).1 ≠ "" then
        if normalize_key (header_cell_value_and_width ws HEADER_ROW c).1 = emp_key then
          some ⟨c, (header_cell_value_and_width ws HEADER_ROW c).2.1⟩
        else
          find_emp_loop ws emp_key fuel
            (header_cell_value_and_width ws HEADER_ROW c).2.2 0
      else
        if 15 ≤ streak + 1 then Option.none
        else
          find_emp_loop ws emp_key fuel
            (header_cell_value_and_width ws HEADER_ROW c).2.2 (streak + 1)
    else Option.none

/-- _find_employee_block. -/
def find_employee_block (ws : Worksheet) (emp : String) :
    Option EmployeeBlock :=
  find_emp_loop ws (normalize_key emp) (ws.max_col + 1) FIRST_EMP_COL 0

/-- _find_project_col: first subheader column of the block (absence column
excluded) whose normalized text matches; 0 when none does. -/
def find_project_col (ws : Worksheet) (block : EmployeeBlock)
    (proj : String) : Nat :=
  match (List.range' block.start_col (block.width - 1)).find?
      (fun c => normalize_key (rawStr (ws.cells SUBHEADER_ROW c)) =
        normalize_key proj) with
  | some c => c
  | Option.none => 0

/-- _find_date_row: first row from DATE_FIRST_ROW to max_row whose date
cell equals the target; 0 when none does. -/
def find_date_row (ws : Worksheet) (dt : Nat) : Nat :=
  match (List.range' DATE_FIRST_ROW (ws.max_row + 1 - DATE_FIRST_ROW)).find?
      (fun r => as_date (ws.cells r DATE_COL) = some dt) with
  | some r => r
  | Option.none => 0

/-! ### Cell writer -/

/-- The clearing loop of the absence branch: set every listed column of the
row to empty. -/
def clearCols (ws : Worksheet) (r : Nat) (cols : List Nat) : Worksheet :=
  cols.foldl (fun w c => setCell w r c CellValue.none) ws

/-- _write_one_day: resolve sheet, date row and employee block, then apply
the absence or project mutation; returns the updated workbook and the
success flag. -/
def write_one_day (wb : Workbook) (dt : Nat) (emp mode proj : String)
    (hrs : Rat) (abs_type : String) : Workbook × Bool :=
  match get_month_sheet wb dt with
  | Option.none => (wb, false)
  | some nm =>
    if find_date_row (wb.data nm) dt = 0 then (wb, false)
    else
      match find_employee_block (wb.data nm) emp with
      | Option.none => (wb, false)
      | some block =>
        if mode = "ABS" then
          (updateSheet wb nm
            (clearCols
              (setCell (wb.data nm) (find_date_row (wb.data nm) dt)
                block.abs_col (CellValue.str abs_type))
              (find_date_row (wb.data nm) dt)
              (List.range' block.start_col (block.abs_col - block.start_col))),
           true)
        else
          if find_project_col (wb.data nm) block proj = 0 then (wb, false)
          else
            (updateSheet wb nm
              (setCell
                (setCell (wb.data nm) (find_date_row (wb.data nm) dt)
                  (find_project_col (wb.data nm) block proj)
                  (CellValue.num hrs))
                (find_date_row (wb.data nm) dt) block.abs_col CellValue.none),
             true)

/-- The day loop of write_range: starting at day cur, iterate fuel
consecutive days (fuel = d_to + 1 - cur matches the Python condition
cur ≤ d_to), attempting a write on Monday..Friday days only and
accumulating (workbook, ok, fail). -/
def write_loop (emp mode proj : String) (hrs : Rat) (abs_type : String) :
    Nat → Nat → Workbook × Nat × Nat → Workbook × Nat × Nat
  | 0, _, acc => acc
  | fuel + 1, cur, acc =>
    if weekday cur ≤ 4 then
      if (write_one_day acc.1 cur emp mode proj hrs abs_type).2 then
        write_loop emp mode proj hrs abs_type fuel (cur + 1)
          ((write_one_day acc.1 cur emp mode proj hrs abs_type).1,
           acc.2.1 + 1, acc.2.2)
      else
        write_loop emp mode proj hrs abs_type fuel (cur + 1)
          ((write_one_day acc.1 cur emp mode proj hrs abs_type).1,
           acc.2.1, acc.2.2 + 1)
    else write_loop emp mode proj hrs abs_type fuel (cur + 1) acc

/-- write_range: trim the inputs, normalize the range so the earlier date
is first, then run the day loop over the inclusive range; returns the
final workbook and (ok_count, fail_count). -/
def write_range (wb : Workbook) (emp mode proj : String) (hrs : Rat)
    (abs_type : String) (d_from d_to : Nat) : Workbook × Nat × Nat :=
  write_loop (trimStr emp) mode (trimStr proj) hrs (trimStr abs_type)
    ((if d_to < d_from then d_from else d_to) + 1 -
      (if d_to < d_from then d_to else d_from))
    (if d_to < d_from then d_to else d_from) (wb, 0, 0)

/-! ### Fill-state scanner -/

/-- The Python test `v not in (None, "", 0)` negated: a cell counts as
empty when it is None, the empty string, or the number zero. -/
def isEmptyCell : CellValue → Bool
  | CellValue.none => true
  | CellValue.str s => s = ""
  | CellValue.num q => q = 0
  | CellValue.date _ => false

/-- Some cell of the employee block (project sub-columns and absence
column) is non-empty at the given row. -/
def rowFilled (ws : Worksheet) (block : EmployeeBlock) (r : Nat) : Bool :=
  (List.range' block.start_col block.width).any
    (fun c => ! isEmptyCell (ws.cells r c))

/-- get_filled_days_for_employee; the Python set is modelled as the list of
dates collected in row order (membership is what the claims are about). -/
def get_filled_days_for_employee (wb : Workbook) (emp : String)
    (month : Nat) : List Nat :=
  if trimStr emp = "" then []
  else
    match get_month_sheet wb month with
    | Option.none => []
    | some nm =>
      match find_employee_block (wb.data nm) (trimStr emp) with
      | Option.none => []
      | some block =>
        (List.range' DATE_FIRST_ROW
            ((wb.data nm).max_row + 1 - DATE_FIRST_ROW)).filterMap
          (fun r =>
            match as_date ((wb.data nm).cells r DATE_COL) with
            | Option.none => Option.none
            | some dv =>
              if yearOf dv = yearOf month ∧ monthOf dv = monthOf month ∧
                  rowFilled (wb.data nm) block r = true
              then some dv else Option.none)

/-! ### Concrete fixtures used by witnesses and counterexamples -/

/-- Monday, 2026-10-12, as an epoch day (weekday 0). -/
def mon20261012 : Nat := daysFromCivil 2026 10 12

def emptySheet : Worksheet :=
  { cells := fun _ _ => CellValue.none
    merged := []
    max_row := 0
    max_col := 0 }

/-- Test cells: "Max" heads a merged block over columns 6-8 with project
sub-columns MOIA and DiE, "Bob" a width-1 block at column 9; rows 5 and 6
carry the dates 2026-10-12 and 2026-10-13; one booked cell at row 6. -/
def testCells (r c : Nat) : CellValue :=
  if r = 3 ∧ c = 6 then CellValue.str "Max"
  else if r = 3 ∧ c = 9 then CellValue.str "Bob"
  else if r = 4 ∧ c = 6 then CellValue.str "MOIA"
  else if r = 4 ∧ c = 7 then CellValue.str "DiE"
  else if r = 5 ∧ c = 3 then CellValue.date (daysFromCivil 2026 10 12)
  else if r = 6 ∧ c = 3 then CellValue.date (daysFromCivil 2026 10 13)
  else if r = 6 ∧ c = 7 then CellValue.num 7
  else CellValue.none

def testSheet : Worksheet :=
  { cells := testCells
    merged := [⟨3, 3, 6, 8⟩]
    max_row := 10
    max_col := 12 }

def testWb : Workbook :=
  { sheetnames := ["Anpassung", "Oktober"]
    data := fun n => if n = "Oktober" then testSheet else emptySheet }

/-- A workbook holding only the ASCII alias sheet for March. -/
def marzWb : Workbook :=
  { sheetnames := ["Maerz"]
    data := fun _ => emptySheet }

/-- The workbook state after one successful project write at the fixture
(used to express idempotence of the second write). -/
def projOnceWb : Workbook :=
  (write_one_day testWb mon20261012 "Max" "PROJ" "MOIA" (7/2) "").1

/-- Cells whose texts differ only by case and surrounding whitespace from
aliceCells2: employee header at (3,6), project subheader at (4,6). -/
def aliceCells1 (r c : Nat) : CellValue :=
  if r = 3 ∧ c = 6 then CellValue.str " Alice "
  else if r = 4 ∧ c = 6 then CellValue.str "Client X "
  else CellValue.none

def aliceCells2 (r c : Nat) : CellValue :=
  if r = 3 ∧ c = 6 then CellValue.str "ALICE"
  else if r = 4 ∧ c = 6 then CellValue.str "  client x"
  else CellValue.none

def aliceSheet1 : Worksheet :=
  { cells := aliceCells1
    merged := []
    max_row := 6
    max_col := 8 }

def aliceSheet2 : Worksheet :=
  { cells := aliceCells2
    merged := []
    max_row := 6
    max_col := 8 }

/-- All len header cells from column start on are empty. -/
def emptyHeaderRun (ws : Worksheet) (start len : Nat) : Bool :=
  (List.range' start len).all
    (fun c => ws.cells HEADER_ROW c = CellValue.none)

/-- Header row with one empty merged range spanning the 15 columns 6-20,
followed by the label "Alice" at column 21. -/
def wideMergeCells (r c : Nat) : CellValue :=
  if r = 3 ∧ c = 21 then CellValue.str "Alice" else CellValue.none

def wideMergeSheet : Worksheet :=
  { cells := wideMergeCells
    merged := [⟨3, 3, 6, 20⟩]
    max_row := 6
    max_col := 25 }

/-- The same header content with no merges at all: columns 6-20 are 15
consecutive unmerged empty header columns before "Alice" at column 21. -/
def plainRunSheet : Worksheet :=
  { cells := wideMergeCells
    merged := []
    max_row := 6
    max_col := 25 }

/-- A workbook without the Settings Sheet "Anpassung". -/
def noSettingsWb : Workbook :=
  { sheetnames := ["Oktober"]
    data := fun _ => emptySheet }

/-! ### Basic lemmas about the resolver -/

/-- The scan always advances: the next column is strictly larger. -/
theorem header_next_col_gt (ws : Worksheet) (row c : Nat) :
    c < (header_cell_value_and_width ws row c).2.2 := by
  unfold header_cell_value_and_width
  cases hf : ws.merged.find? (fun rng => inRange rng row c) with
  | none => simp
  | some rng =>
    have hp := List.find?_some hf
    simp only [inRange, Bool.and_eq_true, decide_eq_true_eq] at hp
    simp only
    omega

/-- Every resolved block width is at least 1. -/
theorem header_width_pos (ws : Worksheet) (row c : Nat) :
    1 ≤ (header_cell_value_and_width ws row c).2.1 := by
  unfold header_cell_value_and_width
  cases hf : ws.merged.find? (fun rng => inRange rng row c) <;> simp

/-- A block returned by the scan loop starts at or after the scan column,
has positive width, and can only be returned for a non-empty key. -/
theorem find_emp_loop_bounds (ws : Worksheet) (key : String) :
    ∀ fuel c streak b, find_emp_loop ws key fuel c streak = some b →
      c ≤ b.start_col ∧ 1 ≤ b.width ∧ key ≠ "" := by
  intro fuel
  induction fuel with
  | zero => intro c streak b h; simp [find_emp_loop] at h
  | succ n ih =>
    intro c streak b h
    unfold find_emp_loop at h
    by_cases hc : c ≤ ws.max_col
    · rw [if_pos hc] at h
      by_cases hk : normalize_key (header_cell_value_and_width ws HEADER_ROW c).1 ≠ ""
      · rw [if_pos hk] at h
        by_cases he : normalize_key (header_cell_value_and_width ws HEADER_ROW c).1 = key
        · rw [if_pos he] at h
          cases h
          refine ⟨Nat.le_refl _, header_width_pos ws HEADER_ROW c, ?_⟩
          intro hke; rw [hke] at he; exact hk he
        · rw [if_neg he] at h
          have := ih _ _ _ h
          have hlt := header_next_col_gt ws HEADER_ROW c
          exact ⟨by omega, this.2⟩
      · rw [if_neg hk] at h
        by_cases hs : 15 ≤ streak + 1
        · rw [if_pos hs] at h; exact absurd h (by simp)
        · rw [if_neg hs] at h
          have := ih _ _ _ h
          have hlt := header_next_col_gt ws HEADER_ROW c
          exact ⟨by omega, this.2⟩
    · rw [if_neg hc] at h; exact absurd h (by simp)

/-- Bounds for a resolved employee block. -/
theorem find_employee_block_bounds (ws : Worksheet) (emp : String)
    (b : EmployeeBlock) (h : find_employee_block ws emp = some b) :
    FIRST_EMP_COL ≤ b.start_col ∧ 1 ≤ b.width ∧ normalize_key emp ≠ "" :=
  find_emp_loop_bounds ws (normalize_key emp) _ _ _ _ h

/-- A non-zero resolved project column lies among the block's project
sub-columns (strictly before the absence column). -/
theorem find_project_col_bounds (ws : Worksheet) (block : EmployeeBlock)
    (proj : String) (h : find_project_col ws block proj ≠ 0) :
    block.start_col ≤ find_project_col ws block proj ∧
      find_project_col ws block proj < block.start_col + (block.width - 1) := by
  unfold find_project_col at *
  cases hf : (List.range' block.start_col (block.width - 1)).find?
      (fun c => decide (normalize_key (rawStr (ws.cells SUBHEADER_ROW c)) =
        normalize_key proj)) with
  | none => rw [hf] at h; simp at h
  | some c =>
    have hm := List.mem_of_find?_eq_some hf
    rw [List.mem_range'_1] at hm
    exact ⟨hm.1, hm.2⟩

/-- A non-zero resolved date row lies between DATE_FIRST_ROW and max_row
and its date cell carries the target date. -/
theorem find_date_row_bounds (ws : Worksheet) (dt : Nat)
    (h : find_date_row ws dt ≠ 0) :
    DATE_FIRST_ROW ≤ find_date_row ws dt ∧ find_date_row ws dt ≤ ws.max_row ∧
      as_date (ws.cells (find_date_row ws dt) DATE_COL) = some dt := by
  unfold find_date_row at *
  cases hf : (List.range' DATE_FIRST_ROW (ws.max_row + 1 - DATE_FIRST_ROW)).find?
      (fun r => decide (as_date (ws.cells r DATE_COL) = some dt)) with
  | none => rw [hf] at h; simp at h
  | some r =>
    have hm := List.mem_of_find?_eq_some hf
    rw [List.mem_range'_1] at hm
    have hp := List.find?_some hf
    simp only [decide_eq_true_eq] at hp
    refine ⟨hm.1, ?_, hp⟩
    show r ≤ ws.max_row
    omega

/-- Cells after setCell. -/
theorem setCell_cells (ws : Worksheet) (r c : Nat) (v : CellValue)
    (r1 c1 : Nat) :
    (setCell ws r c v).cells r1 c1 =
      if r1 = r ∧ c1 = c then v else ws.cells r1 c1 := rfl

/-- Cells after the clearing loop. -/
theorem clearCols_cells (r : Nat) (cols : List Nat) :
    ∀ ws r1 c1, (clearCols ws r cols).cells r1 c1 =
      if r1 = r ∧ c1 ∈ cols then CellValue.none else ws.cells r1 c1 := by
  induction cols with
  | nil => intro ws r1 c1; simp [clearCols]
  | cons a t ih =>
    intro ws r1 c1
    show (clearCols (setCell ws r a CellValue.none) r t).cells r1 c1 = _
    rw [ih]
    by_cases h1 : r1 = r
    · by_cases h2 : c1 ∈ t
      · simp [h1, h2]
      · by_cases h3 : c1 = a
        · simp [h1, h2, h3, setCell_cells]
        · simp [h1, h2, h3, setCell_cells]
    · simp [h1, setCell_cells]

/-- clearCols leaves the non-cell fields unchanged. -/
theorem clearCols_fields (r : Nat) (cols : List Nat) :
    ∀ ws, (clearCols ws r cols).merged = ws.merged ∧
      (clearCols ws r cols).max_row = ws.max_row ∧
      (clearCols ws r cols).max_col = ws.max_col := by
  induction cols with
  | nil => intro ws; exact ⟨rfl, rfl, rfl⟩
  | cons a t ih =>
    intro ws
    exact ih (setCell ws r a CellValue.none)

/-- updateSheet stores the new sheet under the name. -/
theorem updateSheet_data_self (wb : Workbook) (nm : String) (ws : Worksheet) :
    (updateSheet wb nm ws).data nm = ws := by
  simp [updateSheet]

/-- updateSheet leaves other sheets untouched. -/
theorem updateSheet_data_other (wb : Workbook) (nm : String) (ws : Worksheet)
    (n : String) (h : n ≠ nm) : (updateSheet wb nm ws).data n = wb.data n := by
  simp [updateSheet, h]

/-- updateSheet leaves the sheet-name list untouched. -/
theorem updateSheet_sheetnames (wb : Workbook) (nm : String) (ws : Worksheet) :
    (updateSheet wb nm ws).sheetnames = wb.sheetnames := rfl

/-! ### C4 -/

/-- C4: a block of width 1 has zero project sub-columns (its single column
is the absence column): resolving any project name against it returns
not-found (0), and every project-mode write for a date that resolves to
such a block is reported as a failure and leaves the workbook unchanged. -/
theorem C4_width_one_block_project_write_fails :
    (∀ ws block proj, block.width = 1 → find_project_col ws block proj = 0) ∧
    (∀ wb dt emp proj hrs abs_type nm block,
      get_month_sheet wb dt = some nm →
      find_employee_block (wb.data nm) emp = some block →
      block.width = 1 →
      write_one_day wb dt emp "PROJ" proj hrs abs_type = (wb, false)) := by
  have hproj : ∀ ws block proj, block.width = (1 : Nat) →
      find_project_col ws block proj = 0 := by
    intro ws block proj h
    unfold find_project_col
    rw [h]
    rfl
  refine ⟨hproj, ?_⟩
  intro wb dt emp proj hrs abs_type nm block hnm hblk hw
  simp only [write_one_day, hnm]
  by_cases hr : find_date_row (wb.data nm) dt = 0
  · rw [if_pos hr]
  · rw [if_neg hr]
    simp only [hblk]
    rw [if_neg (by decide : ¬(("PROJ" : String) = "ABS"))]
    rw [hproj _ _ _ hw]
    rw [if_pos rfl]

/-- Witness for C4 at the concrete fixture: "Bob" resolves to the width-1
block at column 9 and a project write for Monday 2026-10-12 fails. -/
theorem C4_witness :
    get_month_sheet testWb mon20261012 = some "Oktober" ∧
    find_employee_block testSheet "Bob" = some ⟨9, 1⟩ ∧
    write_one_day testWb mon20261012 "Bob" "PROJ" "MOIA" 7 "" =
      (testWb, false) := by
  refine ⟨by decide, by decide, ?_⟩
  exact C4_width_one_block_project_write_fails.2 testWb mon20261012 "Bob"
    "MOIA" 7 "" "Oktober" ⟨9, 1⟩ (by decide) (by decide) rfl

/-! ### C7 -/

/-- C7: for every date in month 3, sheet resolution looks up the literal
month-3 name "März" first and falls back to the ASCII alias "Maerz" when
the literal sheet is absent but the alias is present; for every other
month the table name is looked up with no fallback. -/
theorem C7_march_alias_resolution (wb : Workbook) (d m : Nat)
    (hm : monthOf d = m) (h1 : 1 ≤ m) (h2 : m ≤ 12) :
    (m = 3 →
      get_month_sheet wb d =
        (if "März" ∈ wb.sheetnames then some "März"
         else if "Maerz" ∈ wb.sheetnames then some "Maerz"
         else Option.none)) ∧
    (m ≠ 3 →
      get_month_sheet wb d =
        (if MONTH_DE m ∈ wb.sheetnames then some (MONTH_DE m)
         else Option.none)) := by
  constructor
  · intro h3
    unfold get_month_sheet month_sheet_name
    rw [hm, h3]
    have e3 : MONTH_DE 3 = "März" := rfl
    rw [e3]
    by_cases ha : "März" ∈ wb.sheetnames
    · rw [if_pos ha, if_pos ha]
    · rw [if_neg ha, if_neg ha]
      by_cases hb : "Maerz" ∈ wb.sheetnames
      · rw [if_pos (⟨rfl, hb⟩ : "März" = "März" ∧ "Maerz" ∈ wb.sheetnames),
            if_pos hb]
      · rw [if_neg (fun hand => hb hand.2), if_neg hb]
  · intro hne
    unfold get_month_sheet month_sheet_name
    rw [hm]
    have hnm : MONTH_DE m ≠ "März" := by
      interval_cases m <;> first | exact absurd rfl hne | decide
    by_cases hmem : MONTH_DE m ∈ wb.sheetnames
    · rw [if_pos hmem, if_pos hmem]
    · rw [if_neg hmem, if_neg hmem]
      rw [if_neg (fun hand => hnm hand.1)]

/-- Witness for C7: 2026-03-10 lies in month 3, and a workbook lacking
"März" but containing "Maerz" resolves to the alias sheet. -/
theorem C7_witness :
    monthOf (daysFromCivil 2026 3 10) = 3 ∧
    get_month_sheet marzWb (daysFromCivil 2026 3 10) = some "Maerz" := by
  refine ⟨by decide, ?_⟩
  have h := (C7_march_alias_resolution marzWb (daysFromCivil 2026 3 10) 3
    (by decide) (by decide) (by decide)).1 rfl
  rw [h]
  decide

/-! ### C1 -/

/-- C1: after every successful single-day write, mutual exclusion holds for
the employee/date regardless of the block's prior contents: an absence-mode
write leaves every project sub-column of the block empty at the date's row
and the absence column equal to the written absence string; a project-mode
write leaves the absence column empty and the resolved project sub-column
equal to the written numeric hours value. -/
theorem C1_write_mutual_exclusion (wb : Workbook) (dt : Nat)
    (emp proj : String) (hrs : Rat) (abs_type : String) (nm : String)
    (block : EmployeeBlock)
    (hnm : get_month_sheet wb dt = some nm)
    (hrow : find_date_row (wb.data nm) dt ≠ 0)
    (hblk : find_employee_block (wb.data nm) emp = some block) :
    ((write_one_day wb dt emp "ABS" proj hrs abs_type).2 = true ∧
     ((write_one_day wb dt emp "ABS" proj hrs abs_type).1.data nm).cells
       (find_date_row (wb.data nm) dt) block.abs_col =
       CellValue.str abs_type ∧
     (∀ c, block.start_col ≤ c → c < block.abs_col →
       ((write_one_day wb dt emp "ABS" proj hrs abs_type).1.data nm).cells
         (find_date_row (wb.data nm) dt) c = CellValue.none)) ∧
    (find_project_col (wb.data nm) block proj ≠ 0 →
      (write_one_day wb dt emp "PROJ" proj hrs abs_type).2 = true ∧
      ((write_one_day wb dt emp "PROJ" proj hrs abs_type).1.data nm).cells
        (find_date_row (wb.data nm) dt) block.abs_col = CellValue.none ∧
      ((write_one_day wb dt emp "PROJ" proj hrs abs_type).1.data nm).cells
        (find_date_row (wb.data nm) dt)
        (find_project_col (wb.data nm) block proj) = CellValue.num hrs) := by
  have hb := find_employee_block_bounds _ _ _ hblk
  constructor
  · simp only [write_one_day, hnm]
    rw [if_neg hrow]
    simp only [hblk]
    rw [if_pos trivial]
    refine ⟨rfl, ?_, ?_⟩
    · rw [updateSheet_data_self, clearCols_cells, setCell_cells]
      rw [if_neg ?_, if_pos ⟨rfl, rfl⟩]
      intro hmem
      have := hmem.2
      rw [List.mem_range'_1] at this
      simp only [EmployeeBlock.abs_col] at this
      omega
    · intro c h1 h2
      have hmem : c ∈ List.range' block.start_col
          (block.abs_col - block.start_col) := by
        rw [List.mem_range'_1]
        simp only [EmployeeBlock.abs_col] at h2 ⊢
        omega
      rw [updateSheet_data_self, clearCols_cells, if_pos ⟨rfl, hmem⟩]
  · intro hpc
    have hpb := find_project_col_bounds _ _ _ hpc
    simp only [write_one_day, hnm]
    rw [if_neg hrow]
    simp only [hblk]
    rw [if_neg (by decide : ¬(("PROJ" : String) = "ABS"))]
    rw [if_neg hpc]
    refine ⟨rfl, ?_, ?_⟩
    · rw [updateSheet_data_self, setCell_cells, if_pos ⟨rfl, rfl⟩]
    · rw [updateSheet_data_self, setCell_cells, if_neg ?_, setCell_cells,
        if_pos ⟨rfl, rfl⟩]
      intro heq
      have := heq.2
      simp only [EmployeeBlock.abs_col] at this
      omega

/-- Witness for C1 at the concrete fixture: sheet "Oktober", employee
"Max", date row 5; both write modes verified. -/
theorem C1_witness :
    find_date_row (testWb.data "Oktober") mon20261012 ≠ 0 ∧
    ((write_one_day testWb mon20261012 "Max" "ABS" "DiE" (7/2)
        "Urlaub").1.data "Oktober").cells
      (find_date_row (testWb.data "Oktober") mon20261012)
      (EmployeeBlock.abs_col ⟨6, 3⟩) = CellValue.str "Urlaub" ∧
    ((write_one_day testWb mon20261012 "Max" "PROJ" "DiE" (7/2)
        "Urlaub").1.data "Oktober").cells
      (find_date_row (testWb.data "Oktober") mon20261012)
      (find_project_col (testWb.data "Oktober") ⟨6, 3⟩ "DiE") =
      CellValue.num (7/2) := by
  have h := C1_write_mutual_exclusion testWb mon20261012 "Max" "DiE" (7/2)
    "Urlaub" "Oktober" ⟨6, 3⟩ (by decide) (by decide) (by decide)
  exact ⟨by decide, h.1.2.1, (h.2 (by decide)).2.2⟩

/-! ### C10 -/

/-- C10: a successful project-mode single-day write mutates exactly the
resolved project sub-column and the absence column of the block at the
resolved date row: every other cell of the month sheet (in particular
every other project sub-column of the block at that row) and every other
sheet are unchanged, and the two mutated cells receive the hours value and
empty respectively. -/
theorem C10_project_write_frame (wb : Workbook) (dt : Nat)
    (emp proj : String) (hrs : Rat) (abs_type : String) (nm : String)
    (block : EmployeeBlock)
    (hnm : get_month_sheet wb dt = some nm)
    (hrow : find_date_row (wb.data nm) dt ≠ 0)
    (hblk : find_employee_block (wb.data nm) emp = some block)
    (hpc : find_project_col (wb.data nm) block proj ≠ 0) :
    (∀ n, n ≠ nm →
      ((write_one_day wb dt emp "PROJ" proj hrs abs_type).1).data n =
        wb.data n) ∧
    ((write_one_day wb dt emp "PROJ" proj hrs abs_type).1).sheetnames =
      wb.sheetnames ∧
    ((write_one_day wb dt emp "PROJ" proj hrs abs_type).1.data nm).cells
      (find_date_row (wb.data nm) dt)
      (find_project_col (wb.data nm) block proj) = CellValue.num hrs ∧
    ((write_one_day wb dt emp "PROJ" proj hrs abs_type).1.data nm).cells
      (find_date_row (wb.data nm) dt) block.abs_col = CellValue.none ∧
    (∀ r c, ¬(r = find_date_row (wb.data nm) dt ∧
        (c = find_project_col (wb.data nm) block proj ∨ c = block.abs_col)) →
      ((write_one_day wb dt emp "PROJ" proj hrs abs_type).1.data nm).cells
        r c = (wb.data nm).cells r c) := by
  have hb := find_employee_block_bounds _ _ _ hblk
  have hpb := find_project_col_bounds _ _ _ hpc
  simp only [write_one_day, hnm]
  rw [if_neg hrow]
  simp only [hblk]
  rw [if_neg (by decide : ¬(("PROJ" : String) = "ABS"))]
  rw [if_neg hpc]
  refine ⟨?_, rfl, ?_, ?_, ?_⟩
  · intro n hn
    exact updateSheet_data_other wb nm _ n hn
  · rw [updateSheet_data_self, setCell_cells, if_neg ?_, setCell_cells,
      if_pos ⟨rfl, rfl⟩]
    intro heq
    have := heq.2
    simp only [EmployeeBlock.abs_col] at this
    omega
  · rw [updateSheet_data_self, setCell_cells, if_pos ⟨rfl, rfl⟩]
  · intro r c hne
    rw [updateSheet_data_self, setCell_cells, if_neg ?_, setCell_cells,
      if_neg ?_]
    · intro hx
      exact hne ⟨hx.1, Or.inl hx.2⟩
    · intro hx
      exact hne ⟨hx.1, Or.inr hx.2⟩

/-- Witness for C10: hours booked under "DiE" at row 6 survive a later
"MOIA" write for 2026-10-13 (row 6). -/
theorem C10_witness :
    ((write_one_day testWb (daysFromCivil 2026 10 13) "Max" "PROJ" "MOIA"
        (7/2) "").1.data "Oktober").cells 6 7 = CellValue.num 7 := by
  have h := C10_project_write_frame testWb (daysFromCivil 2026 10 13) "Max"
    "MOIA" (7/2) "" "Oktober" ⟨6, 3⟩ (by decide) (by decide) (by decide)
    (by decide)
  have hfr := h.2.2.2.2 6 7 (by decide)
  rw [hfr]
  decide

/-! ### C5 -/

/-- The day loop counts one success or one failure for exactly each
Monday-Friday date of its range and skips the others. -/
theorem write_loop_counts (emp mode proj : String) (hrs : Rat)
    (abs_type : String) :
    ∀ fuel cur acc,
      (write_loop emp mode proj hrs abs_type fuel cur acc).2.1 +
        (write_loop emp mode proj hrs abs_type fuel cur acc).2.2 =
      acc.2.1 + acc.2.2 +
        ((List.range' cur fuel).filter (fun d => weekday d ≤ 4)).length := by
  intro fuel
  induction fuel with
  | zero => intro cur acc; simp [write_loop]
  | succ n ih =>
    intro cur acc
    rw [List.range'_succ]
    unfold write_loop
    by_cases hw : weekday cur ≤ 4
    · rw [if_pos hw]
      by_cases hs : (write_one_day acc.1 cur emp mode proj hrs abs_type).2
      · rw [if_pos hs, ih]
        simp [List.filter_cons, hw]
        omega
      · rw [if_neg hs, ih]
        simp [List.filter_cons, hw]
        omega
    · rw [if_neg hw, ih]
      simp [List.filter_cons, hw]

/-- C5: write_range normalizes the pair of dates so the earlier one starts
the range, and attempts exactly one single-day write for each Monday-Friday
date of the inclusive normalized range (weekends are skipped): the success
count plus the failure count equals the number of Monday-Friday dates in
the range; for the concrete 7-day range starting Monday 2026-10-12 that
number is 5. -/
theorem C5_write_range_weekday_count (wb : Workbook)
    (emp mode proj : String) (hrs : Rat) (abs_type : String)
    (d_from d_to : Nat) :
    ((write_range wb emp mode proj hrs abs_type d_from d_to).2.1 +
       (write_range wb emp mode proj hrs abs_type d_from d_to).2.2 =
     ((List.range' (min d_from d_to)
         (max d_from d_to + 1 - min d_from d_to)).filter
        (fun d => weekday d ≤ 4)).length) ∧
    write_range wb emp mode proj hrs abs_type d_from d_to =
      write_range wb emp mode proj hrs abs_type d_to d_from ∧
    ((List.range' mon20261012 7).filter
        (fun d => weekday d ≤ 4)).length = 5 := by
  refine ⟨?_, ?_, by decide⟩
  · unfold write_range
    rw [write_loop_counts]
    have hlo : (if d_to < d_from then d_to else d_from) = min d_from d_to := by
      rw [Nat.min_def]
      split_ifs <;> omega
    have hhi : (if d_to < d_from then d_from else d_to) = max d_from d_to := by
      rw [Nat.max_def]
      split_ifs <;> omega
    rw [hlo, hhi]
    simp
  · unfold write_range
    have h1 : (if d_to < d_from then d_to else d_from) =
        (if d_from < d_to then d_from else d_to) := by
      split_ifs <;> omega
    have h2 : (if d_to < d_from then d_from else d_to) =
        (if d_from < d_to then d_to else d_from) := by
      split_ifs <;> omega
    rw [h1, h2]

/-! ### Congruence lemmas: each resolver reads a fixed region of the sheet -/

/-- find? only depends on the predicate's values on the list. -/
theorem find?_congr {α : Type} (p q : α → Bool) :
    ∀ l : List α, (∀ x ∈ l, p x = q x) → l.find? p = l.find? q := by
  intro l
  induction l with
  | nil => intro h; rfl
  | cons a t ih =>
    intro h
    rw [List.find?_cons, List.find?_cons, h a (by simp)]
    cases hq : q a with
    | true => rfl
    | false => exact ih (fun x hx => h x (by simp [hx]))

/-- Extensionality for worksheets. -/
theorem worksheet_ext (ws1 ws2 : Worksheet) (h1 : ws1.cells = ws2.cells)
    (h2 : ws1.merged = ws2.merged) (h3 : ws1.max_row = ws2.max_row)
    (h4 : ws1.max_col = ws2.max_col) : ws1 = ws2 := by
  cases ws1
  cases ws2
  simp_all

/-- Extensionality for workbooks. -/
theorem workbook_ext (wb1 wb2 : Workbook)
    (h1 : wb1.sheetnames = wb2.sheetnames) (h2 : wb1.data = wb2.data) :
    wb1 = wb2 := by
  cases wb1
  cases wb2
  simp_all

/-- Two updates of the same sheet collapse to the last one. -/
theorem updateSheet_updateSheet (wb : Workbook) (nm : String)
    (ws1 ws2 : Worksheet) :
    updateSheet (updateSheet wb nm ws1) nm ws2 = updateSheet wb nm ws2 := by
  refine workbook_ext _ _ rfl ?_
  funext n
  by_cases h : n = nm <;> simp [updateSheet, h]

/-- Month-sheet resolution only depends on the sheet names, which
updateSheet preserves. -/
theorem get_month_sheet_update (wb : Workbook) (nm : String)
    (ws : Worksheet) (month : Nat) :
    get_month_sheet (updateSheet wb nm ws) month = get_month_sheet wb month :=
  rfl

/-- Header items agree on sheets with the same merges and the same cells
on all rows up to the header row (a merge covering the header row always
has its top-left cell at a row ≤ HEADER_ROW). -/
theorem header_item_congr (ws1 ws2 : Worksheet)
    (hm : ws2.merged = ws1.merged)
    (hc : ∀ r c, r ≤ HEADER_ROW → ws2.cells r c = ws1.cells r c) (c : Nat) :
    header_cell_value_and_width ws2 HEADER_ROW c =
      header_cell_value_and_width ws1 HEADER_ROW c := by
  unfold header_cell_value_and_width
  rw [hm]
  cases hf : ws1.merged.find? (fun rng => inRange rng HEADER_ROW c) with
  | none => rw [hc HEADER_ROW c (Nat.le_refl _)]
  | some rng =>
    have hp := List.find?_some hf
    simp only [inRange, Bool.and_eq_true, decide_eq_true_eq] at hp
    have hcc := hc rng.min_row rng.min_col (by omega)
    simp only [hcc]

/-- The employee scan agrees on sheets with the same merges, same width
and the same cells on all rows up to the header row. -/
theorem find_emp_loop_congr (ws1 ws2 : Worksheet) (key : String)
    (hm : ws2.merged = ws1.merged) (hx : ws2.max_col = ws1.max_col)
    (hc : ∀ r c, r ≤ HEADER_ROW → ws2.cells r c = ws1.cells r c) :
    ∀ fuel c streak, find_emp_loop ws2 key fuel c streak =
      find_emp_loop ws1 key fuel c streak := by
  intro fuel
  induction fuel with
  | zero => intro c streak; rfl
  | succ n ih =>
    intro c streak
    unfold find_emp_loop
    rw [hx, header_item_congr ws1 ws2 hm hc c]
    simp only [ih]

/-- Employee-block resolution under the same congruence conditions. -/
theorem find_employee_block_congr (ws1 ws2 : Worksheet) (emp : String)
    (hm : ws2.merged = ws1.merged) (hx : ws2.max_col = ws1.max_col)
    (hc : ∀ r c, r ≤ HEADER_ROW → ws2.cells r c = ws1.cells r c) :
    find_employee_block ws2 emp = find_employee_block ws1 emp := by
  unfold find_employee_block
  rw [hx]
  exact find_emp_loop_congr ws1 ws2 (normalize_key emp) hm hx hc _ _ _

/-- Project-column resolution only reads the subheader row. -/
theorem find_project_col_congr (ws1 ws2 : Worksheet) (block : EmployeeBlock)
    (proj : String)
    (hc : ∀ c, ws2.cells SUBHEADER_ROW c = ws1.cells SUBHEADER_ROW c) :
    find_project_col ws2 block proj = find_project_col ws1 block proj := by
  unfold find_project_col
  rw [find?_congr _ _ _ (fun c _ => by rw [hc c])]

/-- Date-row lookup only reads the date column and the row bound. -/
theorem find_date_row_congr (ws1 ws2 : Worksheet) (dt : Nat)
    (hx : ws2.max_row = ws1.max_row)
    (hc : ∀ r, ws2.cells r DATE_COL = ws1.cells r DATE_COL) :
    find_date_row ws2 dt = find_date_row ws1 dt := by
  unfold find_date_row
  rw [hx, find?_congr _ _ _ (fun r _ => by rw [hc r])]

/-! ### C6 -/

/-- C6: writing the same (employee, project, hours, date) in project mode
twice in succession is idempotent: if the first write succeeds and produces
workbook wb1, the second write returns (wb1, true) — the final state of the
written project cell and of the absence cell is identical to the state
after the first write (the cell holds the hours value, not an accumulation)
and the second write is also counted a success. -/
theorem C6_project_write_idempotent (wb : Workbook) (dt : Nat)
    (emp proj : String) (hrs : Rat) (abs_type : String) (wb1 : Workbook)
    (h : write_one_day wb dt emp "PROJ" proj hrs abs_type = (wb1, true)) :
    write_one_day wb1 dt emp "PROJ" proj hrs abs_type = (wb1, true) := by
  cases hnm : get_month_sheet wb dt with
  | none =>
    simp only [write_one_day, hnm] at h
    exact absurd (congrArg Prod.snd h) (by simp)
  | some nm =>
    by_cases hrow : find_date_row (wb.data nm) dt = 0
    · simp only [write_one_day, hnm, if_pos hrow] at h
      exact absurd (congrArg Prod.snd h) (by simp)
    · cases hblk : find_employee_block (wb.data nm) emp with
      | none =>
        simp only [write_one_day, hnm, if_neg hrow, hblk] at h
        exact absurd (congrArg Prod.snd h) (by simp)
      | some block =>
        by_cases hpc : find_project_col (wb.data nm) block proj = 0
        · simp only [write_one_day, hnm, if_neg hrow, hblk] at h
          rw [if_neg (by decide : ¬(("PROJ" : String) = "ABS")),
            if_pos hpc] at h
          exact absurd (congrArg Prod.snd h) (by simp)
        · simp only [write_one_day, hnm, if_neg hrow, hblk] at h
          rw [if_neg (by decide : ¬(("PROJ" : String) = "ABS")),
            if_neg hpc] at h
          rw [Prod.mk.injEq] at h
          obtain ⟨hwb1, -⟩ := h
          have hb := find_employee_block_bounds _ _ _ hblk
          have hpb := find_project_col_bounds _ _ _ hpc
          have hrb := find_date_row_bounds _ _ hrow
          have habs : block.abs_col = block.start_col + (block.width - 1) := by
            simp only [EmployeeBlock.abs_col]
            omega
          -- the sheet written by the first write
          have hlow : ∀ r c, r ≤ HEADER_ROW →
              (setCell
                (setCell (wb.data nm) (find_date_row (wb.data nm) dt)
                  (find_project_col (wb.data nm) block proj)
                  (CellValue.num hrs))
                (find_date_row (wb.data nm) dt) block.abs_col
                CellValue.none).cells r c = (wb.data nm).cells r c := by
            intro r c hr
            have h5 : DATE_FIRST_ROW ≤ find_date_row (wb.data nm) dt := hrb.1
            rw [setCell_cells, if_neg (fun hx => by
                have := hx.1
                simp only [HEADER_ROW] at hr
                simp only [DATE_FIRST_ROW] at h5
                omega),
              setCell_cells, if_neg (fun hx => by
                have := hx.1
                simp only [HEADER_ROW] at hr
                simp only [DATE_FIRST_ROW] at h5
                omega)]
          have hsub : ∀ c,
              (setCell
                (setCell (wb.data nm) (find_date_row (wb.data nm) dt)
                  (find_project_col (wb.data nm) block proj)
                  (CellValue.num hrs))
                (find_date_row (wb.data nm) dt) block.abs_col
                CellValue.none).cells SUBHEADER_ROW c =
              (wb.data nm).cells SUBHEADER_ROW c := by
            intro c
            have h5 : DATE_FIRST_ROW ≤ find_date_row (wb.data nm) dt := hrb.1
            rw [setCell_cells, if_neg (fun hx => by
                have := hx.1
                simp only [SUBHEADER_ROW] at hx
                simp only [DATE_FIRST_ROW] at h5
                omega),
              setCell_cells, if_neg (fun hx => by
                have := hx.1
                simp only [SUBHEADER_ROW] at hx
                simp only [DATE_FIRST_ROW] at h5
                omega)]
          have hdc : ∀ r,
              (setCell
                (setCell (wb.data nm) (find_date_row (wb.data nm) dt)
                  (find_project_col (wb.data nm) block proj)
                  (CellValue.num hrs))
                (find_date_row (wb.data nm) dt) block.abs_col
                CellValue.none).cells r DATE_COL =
              (wb.data nm).cells r DATE_COL := by
            intro r
            have h6 : FIRST_EMP_COL ≤ block.start_col := hb.1
            rw [setCell_cells, if_neg (fun hx => by
                have := hx.2
                rw [habs] at this
                simp only [DATE_COL] at this
                simp only [FIRST_EMP_COL] at h6
                omega),
              setCell_cells, if_neg (fun hx => by
                have := hx.2
                simp only [DATE_COL] at this
                simp only [FIRST_EMP_COL] at h6
                omega)]
          have hrow2 : find_date_row
              (setCell
                (setCell (wb.data nm) (find_date_row (wb.data nm) dt)
                  (find_project_col (wb.data nm) block proj)
                  (CellValue.num hrs))
                (find_date_row (wb.data nm) dt) block.abs_col
                CellValue.none) dt = find_date_row (wb.data nm) dt :=
            find_date_row_congr (wb.data nm)
              (setCell
                (setCell (wb.data nm) (find_date_row (wb.data nm) dt)
                  (find_project_col (wb.data nm) block proj)
                  (CellValue.num hrs))
                (find_date_row (wb.data nm) dt) block.abs_col
                CellValue.none) dt rfl hdc
          have hblk2 : find_employee_block
              (setCell
                (setCell (wb.data nm) (find_date_row (wb.data nm) dt)
                  (find_project_col (wb.data nm) block proj)
                  (CellValue.num hrs))
                (find_date_row (wb.data nm) dt) block.abs_col
                CellValue.none) emp = some block := by
            rw [find_employee_block_congr (wb.data nm)
              (setCell
                (setCell (wb.data nm) (find_date_row (wb.data nm) dt)
                  (find_project_col (wb.data nm) block proj)
                  (CellValue.num hrs))
                (find_date_row (wb.data nm) dt) block.abs_col
                CellValue.none) emp rfl rfl hlow]
            exact hblk
          have hpc2 : find_project_col
              (setCell
                (setCell (wb.data nm) (find_date_row (wb.data nm) dt)
                  (find_project_col (wb.data nm) block proj)
                  (CellValue.num hrs))
                (find_date_row (wb.data nm) dt) block.abs_col
                CellValue.none) block proj =
              find_project_col (wb.data nm) block proj :=
            find_project_col_congr (wb.data nm)
              (setCell
                (setCell (wb.data nm) (find_date_row (wb.data nm) dt)
                  (find_project_col (wb.data nm) block proj)
                  (CellValue.num hrs))
                (find_date_row (wb.data nm) dt) block.abs_col
                CellValue.none) block proj hsub
          subst hwb1
          simp only [write_one_day, get_month_sheet_update, hnm,
            updateSheet_data_self]
          rw [hrow2, if_neg hrow]
          simp only [hblk2]
          rw [if_neg (by decide : ¬(("PROJ" : String) = "ABS"))]
          rw [hpc2, if_neg hpc]
          rw [updateSheet_updateSheet]
          have hW : setCell
              (setCell
                (setCell
                  (setCell (wb.data nm) (find_date_row (wb.data nm) dt)
                    (find_project_col (wb.data nm) block proj)
                    (CellValue.num hrs))
                  (find_date_row (wb.data nm) dt) block.abs_col
                  CellValue.none)
                (find_date_row (wb.data nm) dt)
                (find_project_col (wb.data nm) block proj)
                (CellValue.num hrs))
              (find_date_row (wb.data nm) dt) block.abs_col CellValue.none =
              setCell
                (setCell (wb.data nm) (find_date_row (wb.data nm) dt)
                  (find_project_col (wb.data nm) block proj)
                  (CellValue.num hrs))
                (find_date_row (wb.data nm) dt) block.abs_col
                CellValue.none := by
            have hPA : find_project_col (wb.data nm) block proj ≠
                block.abs_col := by
              rw [habs]
              omega
            refine worksheet_ext _ _ ?_ rfl rfl rfl
            funext r c
            by_cases h1 : r = find_date_row (wb.data nm) dt ∧
                c = block.abs_col
            · rw [setCell_cells, if_pos h1, setCell_cells, if_pos h1]
            · by_cases h2 : r = find_date_row (wb.data nm) dt ∧
                  c = find_project_col (wb.data nm) block proj
              · rw [setCell_cells, if_neg h1, setCell_cells, if_pos h2,
                  setCell_cells, if_neg h1, setCell_cells, if_pos h2]
              · rw [setCell_cells, if_neg h1, setCell_cells, if_neg h2,
                  setCell_cells, if_neg h1, setCell_cells, if_neg h2]
          rw [hW]

/-- Witness for C6: the second identical project write at the fixture
returns the unchanged workbook and success. -/
theorem C6_witness :
    write_one_day projOnceWb mon20261012 "Max" "PROJ" "MOIA" (7/2) "" =
      (projOnceWb, true) := by
  apply C6_project_write_idempotent testWb mon20261012 "Max" "MOIA" (7/2)
    "" projOnceWb
  exact Prod.ext rfl (by decide)

/-! ### C8 -/

/-- Header items of two sheets with the same merges agree on the
normalized label and on the width / next-column data whenever every cell
text normalizes identically. -/
theorem header_item_norm (ws1 ws2 : Worksheet)
    (hm : ws2.merged = ws1.merged)
    (hcell : ∀ r c, normalize_key (strippedStr (ws2.cells r c)) =
      normalize_key (strippedStr (ws1.cells r c))) (c : Nat) :
    normalize_key (header_cell_value_and_width ws2 HEADER_ROW c).1 =
      normalize_key (header_cell_value_and_width ws1 HEADER_ROW c).1 ∧
    (header_cell_value_and_width ws2 HEADER_ROW c).2 =
      (header_cell_value_and_width ws1 HEADER_ROW c).2 := by
  unfold header_cell_value_and_width
  rw [hm]
  cases hf : ws1.merged.find? (fun rng => inRange rng HEADER_ROW c) with
  | none => exact ⟨hcell HEADER_ROW c, rfl⟩
  | some rng => exact ⟨hcell rng.min_row rng.min_col, rfl⟩

/-- The employee scan only sees normalized labels: sheets whose cell texts
normalize identically yield identical scans. -/
theorem find_emp_loop_norm_congr (ws1 ws2 : Worksheet) (key : String)
    (hm : ws2.merged = ws1.merged) (hx : ws2.max_col = ws1.max_col)
    (hcell : ∀ r c, normalize_key (strippedStr (ws2.cells r c)) =
      normalize_key (strippedStr (ws1.cells r c))) :
    ∀ fuel c streak, find_emp_loop ws2 key fuel c streak =
      find_emp_loop ws1 key fuel c streak := by
  intro fuel
  induction fuel with
  | zero => intro c streak; rfl
  | succ n ih =>
    intro c streak
    unfold find_emp_loop
    rw [hx]
    obtain ⟨h1, h2⟩ := header_item_norm ws1 ws2 hm hcell c
    rw [h1, h2]
    simp only [ih]

/-- C8: employee-block and project-column resolution are invariant under
changes of letter case and leading/trailing whitespace, both in the
queried name and in the stored header or subheader cell text: queried
names with equal normalizations, against sheets whose cell texts have
equal normalizations, resolve identically. -/
theorem C8_case_whitespace_insensitive (ws1 ws2 : Worksheet)
    (n1 n2 p1 p2 : String)
    (hm : ws2.merged = ws1.merged) (hx : ws2.max_col = ws1.max_col)
    (hcellA : ∀ r c, normalize_key (strippedStr (ws2.cells r c)) =
      normalize_key (strippedStr (ws1.cells r c)))
    (hcellB : ∀ r c, normalize_key (rawStr (ws2.cells r c)) =
      normalize_key (rawStr (ws1.cells r c)))
    (hn : normalize_key n1 = normalize_key n2)
    (hp : normalize_key p1 = normalize_key p2) :
    find_employee_block ws2 n1 = find_employee_block ws1 n2 ∧
    (∀ block, find_project_col ws2 block p1 =
      find_project_col ws1 block p2) := by
  constructor
  · unfold find_employee_block
    rw [hx, hn]
    exact find_emp_loop_norm_congr ws1 ws2 (normalize_key n2) hm hx
      hcellA _ _ _
  · intro block
    unfold find_project_col
    rw [find?_congr _ _ _
      (fun x _ => by rw [hcellB SUBHEADER_ROW x, hp])]

/-- Witness for C8: " Alice " against a cell "ALICE" and project
"  Client X" against a cell "  client x" resolve as their canonical
spellings do. -/
theorem C8_witness :
    normalize_key " Alice " = normalize_key "ALICE" ∧
    find_employee_block aliceSheet2 " Alice " =
      find_employee_block aliceSheet1 "ALICE" ∧
    find_project_col aliceSheet2 ⟨6, 3⟩ "  Client X" =
      find_project_col aliceSheet1 ⟨6, 3⟩ "client x" ∧
    find_employee_block aliceSheet1 "ALICE" = some ⟨6, 1⟩ ∧
    find_project_col aliceSheet1 ⟨6, 3⟩ "client x" = 6 := by
  have hA : ∀ r c, normalize_key (strippedStr (aliceSheet2.cells r c)) =
      normalize_key (strippedStr (aliceSheet1.cells r c)) := by
    intro r c
    show normalize_key (strippedStr (aliceCells2 r c)) =
      normalize_key (strippedStr (aliceCells1 r c))
    unfold aliceCells1 aliceCells2
    by_cases h1 : r = 3 ∧ c = 6
    · rw [if_pos h1, if_pos h1]; decide
    · rw [if_neg h1, if_neg h1]
      by_cases h2 : r = 4 ∧ c = 6
      · rw [if_pos h2, if_pos h2]; decide
      · rw [if_neg h2, if_neg h2]
  have hB : ∀ r c, normalize_key (rawStr (aliceSheet2.cells r c)) =
      normalize_key (rawStr (aliceSheet1.cells r c)) := by
    intro r c
    show normalize_key (rawStr (aliceCells2 r c)) =
      normalize_key (rawStr (aliceCells1 r c))
    unfold aliceCells1 aliceCells2
    by_cases h1 : r = 3 ∧ c = 6
    · rw [if_pos h1, if_pos h1]; decide
    · rw [if_neg h1, if_neg h1]
      by_cases h2 : r = 4 ∧ c = 6
      · rw [if_pos h2, if_pos h2]; decide
      · rw [if_neg h2, if_neg h2]
  have h := C8_case_whitespace_insensitive aliceSheet1 aliceSheet2
    " Alice " "ALICE" "  Client X" "client x" rfl rfl hA hB
    (by decide) (by decide)
  exact ⟨by decide, h.1, h.2 ⟨6, 3⟩, by decide, by decide⟩

/-! ### C9 -/

/-- C9: filled_dates returns exactly the set of dates d carried by some
date row of the month sheet, lying in the target month and year, whose row
holds at least one non-empty cell (not None, not "", not 0) in the
employee's block; when the month sheet or the employee block cannot be
resolved the result is empty rather than an error. -/
theorem C9_filled_days_characterization (wb : Workbook) (emp : String)
    (month : Nat) :
    (get_month_sheet wb month = Option.none →
      get_filled_days_for_employee wb emp month = []) ∧
    (∀ nm, get_month_sheet wb month = some nm →
      find_employee_block (wb.data nm) (trimStr emp) = Option.none →
      get_filled_days_for_employee wb emp month = []) ∧
    (∀ nm block d, get_month_sheet wb month = some nm →
      find_employee_block (wb.data nm) (trimStr emp) = some block →
      (d ∈ get_filled_days_for_employee wb emp month ↔
        ∃ r, DATE_FIRST_ROW ≤ r ∧ r ≤ (wb.data nm).max_row ∧
          as_date ((wb.data nm).cells r DATE_COL) = some d ∧
          yearOf d = yearOf month ∧ monthOf d = monthOf month ∧
          ∃ c, block.start_col ≤ c ∧ c < block.start_col + block.width ∧
            isEmptyCell ((wb.data nm).cells r c) = false)) := by
  refine ⟨?_, ?_, ?_⟩
  · intro h
    unfold get_filled_days_for_employee
    by_cases he : trimStr emp = ""
    · rw [if_pos he]
    · rw [if_neg he]
      simp only [h]
  · intro nm hnm hblk
    unfold get_filled_days_for_employee
    by_cases he : trimStr emp = ""
    · rw [if_pos he]
    · rw [if_neg he]
      simp only [hnm, hblk]
  · intro nm block d hnm hblk
    have he : trimStr emp ≠ "" := by
      intro heq
      apply (find_employee_block_bounds _ _ _ hblk).2.2
      rw [heq]
      decide
    unfold get_filled_days_for_employee
    rw [if_neg he]
    simp only [hnm, hblk]
    rw [List.mem_filterMap]
    constructor
    · rintro ⟨r, hr, hf⟩
      rw [List.mem_range'_1] at hr
      cases hd : as_date ((wb.data nm).cells r DATE_COL) with
      | none => simp only [hd] at hf; exact absurd hf (by simp)
      | some dv =>
        simp only [hd] at hf
        by_cases hcond : yearOf dv = yearOf month ∧
            monthOf dv = monthOf month ∧
            rowFilled (wb.data nm) block r = true
        · rw [if_pos hcond] at hf
          have hdv : dv = d := by
            have := hf
            simp only [Option.some.injEq] at this
            exact this
          subst hdv
          obtain ⟨hy, hm2, hfill⟩ := hcond
          unfold rowFilled at hfill
          rw [List.any_eq_true] at hfill
          obtain ⟨c, hcmem, hcval⟩ := hfill
          rw [List.mem_range'_1] at hcmem
          refine ⟨r, hr.1, by omega, hd, hy, hm2, c, hcmem.1,
            by omega, ?_⟩
          simp only [Bool.not_eq_true'] at hcval
          exact hcval
        · rw [if_neg hcond] at hf
          exact absurd hf (by simp)
    · rintro ⟨r, h5, hmax, hdate, hy, hm2, c, hc1, hc2, hcell⟩
      refine ⟨r, ?_, ?_⟩
      · rw [List.mem_range'_1]
        constructor
        · exact h5
        · omega
      · simp only [hdate]
        have hfill : rowFilled (wb.data nm) block r = true := by
          unfold rowFilled
          rw [List.any_eq_true]
          refine ⟨c, ?_, ?_⟩
          · rw [List.mem_range'_1]
            exact ⟨hc1, hc2⟩
          · simp only [Bool.not_eq_true']
            exact hcell
        rw [if_pos ⟨hy, hm2, hfill⟩]

/-- Witness for C9: 2026-10-13 is filled for "Max" at the fixture (hours
booked in the DiE column at row 6). -/
theorem C9_witness :
    daysFromCivil 2026 10 13 ∈
      get_filled_days_for_employee testWb "Max" mon20261012 := by
  have h := (C9_filled_days_characterization testWb "Max" mon20261012).2.2
    "Oktober" ⟨6, 3⟩ (daysFromCivil 2026 10 13) (by decide) (by decide)
  exact h.mpr ⟨6, by decide, by decide, by decide, by decide, by decide,
    7, by decide, by decide, by decide⟩

/-! ### C3 -/

/-- C3 counterexample: this sheet's header row carries 15 consecutive
columns (6-20) with empty header cells before the column whose label
matches "Alice" (column 21), yet resolve_employee_block returns the Alice
block instead of aborting: the streak counter counts one per scan item,
and the empty merged range 6-20 is a single item. -/
theorem C3_counterexample :
    emptyHeaderRun wideMergeSheet 6 15 = true ∧
    find_employee_block wideMergeSheet "Alice" = some ⟨21, 1⟩ := by
  exact ⟨by decide, by decide⟩

/-- If the scan sits inside a run of unmerged empty header columns
run_start .. run_start+14 with the streak at least the offset, it aborts
with not-found. -/
theorem emp_loop_in_run (ws : Worksheet) (key : String) (run_start : Nat)
    (hunmerged : ∀ i, i < 15 →
      ws.merged.find? (fun rng => inRange rng HEADER_ROW (run_start + i)) =
        Option.none)
    (hempty : ∀ i, i < 15 →
      normalize_key (strippedStr (ws.cells HEADER_ROW (run_start + i))) =
        "") :
    ∀ fuel j streak, j < 15 → j ≤ streak →
      find_emp_loop ws key fuel (run_start + j) streak = Option.none := by
  intro fuel
  induction fuel with
  | zero => intro j streak hj hs; rfl
  | succ n ih =>
    intro j streak hj hs
    unfold find_emp_loop
    by_cases hc : run_start + j ≤ ws.max_col
    · rw [if_pos hc]
      have hitem : header_cell_value_and_width ws HEADER_ROW
          (run_start + j) =
          (strippedStr (ws.cells HEADER_ROW (run_start + j)), 1,
            run_start + j + 1) := by
        unfold header_cell_value_and_width
        rw [hunmerged j hj]
      simp only [hitem]
      rw [hempty j hj]
      rw [if_neg (by simp : ¬(("" : String) ≠ ""))]
      by_cases hstop : 15 ≤ streak + 1
      · rw [if_pos hstop]
      · rw [if_neg hstop]
        have hj1 : j + 1 < 15 := by omega
        exact ih (j + 1) (streak + 1) hj1 (by omega)
    · rw [if_neg hc]

/-- Scan steps never jump past an unmerged column ahead of them. -/
theorem header_next_le (ws : Worksheet) (c run_start : Nat)
    (hlt : c < run_start)
    (hun : ws.merged.find? (fun rng => inRange rng HEADER_ROW run_start) =
      Option.none) :
    (header_cell_value_and_width ws HEADER_ROW c).2.2 ≤ run_start := by
  unfold header_cell_value_and_width
  cases hf : ws.merged.find? (fun rng => inRange rng HEADER_ROW c) with
  | none =>
    show c + 1 ≤ run_start
    omega
  | some rng =>
    have hp := List.find?_some hf
    simp only [inRange, Bool.and_eq_true, decide_eq_true_eq] at hp
    show rng.min_col + (rng.max_col - rng.min_col + 1) ≤ run_start
    by_contra hgt
    push_neg at hgt
    rw [List.find?_eq_none] at hun
    apply hun rng (List.mem_of_find?_eq_some hf)
    simp only [inRange, Bool.and_eq_true, decide_eq_true_eq]
    refine ⟨⟨⟨hp.1.1.1, hp.1.1.2⟩, by omega⟩, by omega⟩

/-- Scanning from a column at or before the run start, with no matching
label before the run, ends in not-found. -/
theorem emp_loop_before_run (ws : Worksheet) (key : String)
    (run_start : Nat)
    (hunmerged : ∀ i, i < 15 →
      ws.merged.find? (fun rng => inRange rng HEADER_ROW (run_start + i)) =
        Option.none)
    (hempty : ∀ i, i < 15 →
      normalize_key (strippedStr (ws.cells HEADER_ROW (run_start + i))) =
        "") :
    ∀ fuel c streak, c ≤ run_start →
      (∀ x, c ≤ x → x < run_start →
        normalize_key (header_cell_value_and_width ws HEADER_ROW x).1 ≠
          key) →
      find_emp_loop ws key fuel c streak = Option.none := by
  intro fuel
  induction fuel with
  | zero => intro c streak hcr hno; rfl
  | succ n ih =>
    intro c streak hcr hno
    by_cases heq : c = run_start
    · subst heq
      exact emp_loop_in_run ws key c hunmerged hempty (n + 1) 0 streak
        (by omega) (by omega)
    · have hlt : c < run_start := by omega
      have hnext := header_next_col_gt ws HEADER_ROW c
      have hnle := header_next_le ws c run_start hlt
        (hunmerged 0 (by omega))
      unfold find_emp_loop
      by_cases hc : c ≤ ws.max_col
      · rw [if_pos hc]
        by_cases hk :
            normalize_key (header_cell_value_and_width ws HEADER_ROW c).1 ≠
              ""
        · rw [if_pos hk]
          rw [if_neg (hno c (Nat.le_refl c) hlt)]
          exact ih _ 0 hnle
            (fun x hx1 hx2 => hno x (by omega) hx2)
        · rw [if_neg hk]
          by_cases hstop : 15 ≤ streak + 1
          · rw [if_pos hstop]
          · rw [if_neg hstop]
            exact ih _ (streak + 1) hnle
              (fun x hx1 hx2 => hno x (by omega) hx2)
      · rw [if_neg hc]

/-- C3 amended: for every sheet whose header row contains, at or after the
first employee column, 15 consecutive columns that are unmerged at the
header row and have empty header cells, where no column scanned before the
run resolves to the sought employee name, resolve_employee_block aborts
and returns not-found.  (As the counterexample forces, the streak counter
counts one per scan item — an empty merged range of any width counts once —
and only columns from the first employee column on are scanned.) -/
theorem C3_empty_streak_abort (ws : Worksheet) (emp : String)
    (run_start : Nat)
    (hstart : FIRST_EMP_COL ≤ run_start)
    (hunmerged : ∀ i, i < 15 →
      ws.merged.find? (fun rng => inRange rng HEADER_ROW (run_start + i)) =
        Option.none)
    (hempty : ∀ i, i < 15 →
      normalize_key (strippedStr (ws.cells HEADER_ROW (run_start + i))) =
        "")
    (hnomatch : ∀ c, c < run_start → FIRST_EMP_COL ≤ c →
      normalize_key (header_cell_value_and_width ws HEADER_ROW c).1 ≠
        normalize_key emp) :
    find_employee_block ws emp = Option.none := by
  unfold find_employee_block
  exact emp_loop_before_run ws (normalize_key emp) run_start hunmerged
    hempty (ws.max_col + 1) FIRST_EMP_COL 0 hstart
    (fun x hx1 hx2 => hnomatch x hx2 hx1)

/-- Witness for C3 (amended): with the same header content but no merges,
the 15 empty columns 6-20 do abort the scan and "Alice" at column 21 is
never found. -/
theorem C3_witness :
    emptyHeaderRun plainRunSheet 6 15 = true ∧
    find_employee_block plainRunSheet "Alice" = Option.none := by
  refine ⟨by decide, ?_⟩
  exact C3_empty_streak_abort plainRunSheet "Alice" 6 (by decide)
    (by decide) (by decide) (by decide)

/-! ### C2 -/

/-- C2 counterexample: a workbook without the Settings Sheet "Anpassung"
makes load_lists raise a runtime error; it does not return three empty
lists. -/
theorem C2_counterexample :
    (SHEET_EINGABE ∈ noSettingsWb.sheetnames ↔ False) ∧
    load_lists noSettingsWb =
      Except.error "Blatt Anpassung nicht gefunden." ∧
    load_lists noSettingsWb ≠ Except.ok ([], [], []) := by
  have h2 : load_lists noSettingsWb =
      Except.error "Blatt Anpassung nicht gefunden." := by
    unfold load_lists
    rw [if_neg (by decide)]
  refine ⟨by decide, h2, ?_⟩
  rw [h2]
  intro hx
  exact Except.noConfusion hx

/-- C2 amended: for every workbook that does not contain the Settings
Sheet, load_lists raises a runtime error (sheet not found) — surfacing the
absent sheet as a thrown error whose handling (the caller substitutes
fallback lists) is out of scope. -/
theorem C2_load_lists_missing_sheet_raises (wb : Workbook)
    (h : SHEET_EINGABE ∉ wb.sheetnames) :
    load_lists wb = Except.error "Blatt Anpassung nicht gefunden." := by
  unfold load_lists
  rw [if_neg h]

/-- Witness for C2 at the concrete workbook without "Anpassung". -/
theorem C2_witness :
    SHEET_EINGABE ∉ noSettingsWb.sheetnames ∧
    load_lists noSettingsWb =
      Except.error "Blatt Anpassung nicht gefunden." :=
  ⟨by decide, C2_load_lists_missing_sheet_raises noSettingsWb (by decide)⟩

end Stundenapp
